import Mathlib

/-!
Verification development for the SQL rendering core of pg-db-tools
(`src/pg_db_tools/sql_renderer.py`).

The data model mirrors the fields of the `pg_types` objects that
`sql_renderer.py` reads (the `pg_types` module itself only declares the
containers; every field modelled here is one the renderer accesses).
Rendering functions are direct translations of the Python functions of
`sql_renderer.py`, keeping their names.  The dependency graph builder and
the topological orderer live outside `sql_renderer.py` and are modelled
from the specification where noted.
-/

namespace PgDbTools

/-- Translation of `quote_ident` (sql_renderer.py): wrap in double quotes. -/
def quote_ident (ident : String) : String :=
  "\"" ++ ident ++ "\""

/-- Translation of `quote_string` (sql_renderer.py): wrap in single quotes. -/
def quote_string (string : String) : String :=
  "\x27" ++ string ++ "\x27"

/-- Translation of `escape_string` (sql_renderer.py): double embedded single
quotes (`string.replace("\x27", "\x27\x27")`, written as a per-character
expansion, which is equivalent for a single-character pattern). -/
def escape_string (string : String) : String :=
  ⟨string.data.flatMap (fun c => if c = '\x27' then ['\x27', '\x27'] else [c])⟩

/-- Python truthiness of an optional string (`if x:` where `x` is `None` or a
string): false for `None` and for the empty string. -/
def pyTruthy : Option String → Bool
  | none => false
  | some s => !s.isEmpty

/-- Python `str.upper()`, modelled as per-character uppercasing. -/
def pyUpper (s : String) : String :=
  ⟨s.data.map Char.toUpper⟩

/-- A reference to the owning `PgSchema`; the renderer only reads its name. -/
structure PgSchemaRef where
  name : String
  deriving DecidableEq

/-- A reference to a `PgRole` (table owner); the renderer only reads its
name. -/
structure PgRoleRef where
  name : String
  deriving DecidableEq

/-- An index attached to a table; the renderer only reads its definition. -/
structure PgIndex where
  definition : String
  deriving DecidableEq

/-- A primary key: ordered column list. -/
structure PgPrimaryKey where
  columns : List String
  deriving DecidableEq

/-- A unique constraint (the `'columns'` entry read by the renderer). -/
structure PgUnique where
  columns : List String
  deriving DecidableEq

/-- A check constraint (the `'expression'` entry read by the renderer). -/
structure PgCheck where
  expression : String
  deriving DecidableEq

/-- One exclusion of an exclude constraint (`exclude_element`/`operator`). -/
structure PgExclusion where
  exclude_element : String
  operator : String
  deriving DecidableEq

/-- An exclude constraint (`index_method` and `exclusions` entries). -/
structure PgExclude where
  index_method : Option String
  exclusions : List PgExclusion
  deriving DecidableEq

/-- A table column: the fields read by `render_column_definition`. -/
structure PgColumn where
  name : String
  data_type : String
  nullable : Bool
  default : Option String
  deriving DecidableEq

/-- A foreign key.  `name` is `none` when the object carries no `name`
attribute (the renderer probes it with `try/except AttributeError`).
`ref_schema`/`ref_table` model `get_name(foreign_key.schema)` and
`get_name(foreign_key.ref_table)`: the names of the referenced schema and
table. -/
structure PgForeignKey where
  name : Option String
  columns : List String
  ref_schema : String
  ref_table : String
  ref_columns : List String
  on_update : Option String
  on_delete : Option String
  deriving DecidableEq

/-- Reference to an inherited parent table (`table.inherits.schema.name`,
`table.inherits.name`). -/
structure PgTableRef where
  schema : PgSchemaRef
  name : String
  deriving DecidableEq

/-- A table: every field read by `render_table_sql` and the foreign-key
emission loop. -/
structure PgTable where
  schema : PgSchemaRef
  name : String
  columns : List PgColumn
  primary_key : Option PgPrimaryKey
  unique : List PgUnique
  check : List PgCheck
  exclude : List PgExclude
  inherits : Option PgTableRef
  description : Option String
  indexes : List PgIndex
  owner : Option PgRoleRef
  privs : List (String × String)
  foreign_keys : List PgForeignKey
  deriving DecidableEq

/-- A function argument (`render_argument` reads name, data type, default;
the function renderer reads `mode`). -/
structure PgArgument where
  name : Option String
  data_type : String
  mode : String
  default : Option String
  deriving DecidableEq

/-- A function: every field read by `render_function_sql`. -/
structure PgFunction where
  schema : PgSchemaRef
  name : String
  arguments : List PgArgument
  returns_set : Bool
  return_type : String
  src : String
  language : String
  volatility : String
  strict : Bool
  deriving DecidableEq

/-- A sequence: every field read by `render_sequence_sql`. -/
structure PgSequence where
  schema : PgSchemaRef
  name : String
  start_value : Int
  increment : Int
  minimum_value : Option Int
  maximum_value : Option Int
  deriving DecidableEq

/-- A view.  `depends` is modelled from the spec: the explicitly declared
(schema, name) pairs of tables/views the query relies on (§4.2 "View →
every table/view explicitly declared as a dependency"); the renderer itself
only reads schema, name and query text. -/
structure PgView where
  schema : PgSchemaRef
  name : String
  view_query : String
  depends : List (String × String)
  deriving DecidableEq

/-- A trigger: every field read by `render_trigger_sql`.  `table` and
`function` are the qualified names of the target table and function. -/
structure PgTrigger where
  name : String
  when : String
  events : List String
  table : String
  affecteach : String
  function : String
  deriving DecidableEq

/-- A cast: every field read by `render_cast_sql`. -/
structure PgCast where
  source : String
  target : String
  function : String
  implicit : Bool
  deriving DecidableEq

/-- A seed row: target table and column→value mapping in insertion order. -/
structure PgRow where
  table : String
  values : List (String × String)
  deriving DecidableEq

/-- A role: every field read by `render_role_sql`. -/
structure PgRole where
  name : String
  login : Bool
  super : Bool
  inherit : Bool
  createdb : Bool
  createrole : Bool
  membership : List PgRoleRef
  deriving DecidableEq

/-- A database-level setting: name/value pair. -/
structure PgSetting where
  name : String
  value : String
  deriving DecidableEq

/-- An enum type: schema, name and ordered labels. -/
structure PgEnumType where
  schema : PgSchemaRef
  name : String
  labels : List String
  deriving DecidableEq

/-- One field of a composite type. -/
structure PgCompositeColumn where
  name : String
  data_type : String
  deriving DecidableEq

/-- A composite type: schema, name and ordered fields. -/
structure PgCompositeType where
  schema : PgSchemaRef
  name : String
  columns : List PgCompositeColumn
  deriving DecidableEq

/-- An aggregate.  `sfunc` and `stype` model `pg_aggregate.sfunc.ident()`
and `pg_aggregate.stype.ident()` (the rendered identities of the referenced
state-transition function and state type). -/
structure PgAggregate where
  schema : PgSchemaRef
  name : String
  arguments : List PgArgument
  sfunc : String
  stype : String
  deriving DecidableEq

/-- A schema object: named namespace owning tables (`database.schemas`
values; the foreign-key emission loop reads `schema.tables`). -/
structure PgSchema where
  name : String
  tables : List PgTable
  deriving DecidableEq

/-- The tagged union of schema-object kinds, one case per entry of the
`sql_renderers` dispatch table of sql_renderer.py. -/
inductive PgObject where
  | setting : PgSetting → PgObject
  | schema : PgSchema → PgObject
  | table : PgTable → PgObject
  | function : PgFunction → PgObject
  | sequence : PgSequence → PgObject
  | view : PgView → PgObject
  | compositeType : PgCompositeType → PgObject
  | enumType : PgEnumType → PgObject
  | aggregate : PgAggregate → PgObject
  | trigger : PgTrigger → PgObject
  | role : PgRole → PgObject
  | cast : PgCast → PgObject
  | row : PgRow → PgObject
  deriving DecidableEq

/-- The top-level container: extensions, schemas (the renderer sorts the
mapping values by name) and the flat object sequence. -/
structure PgDatabase where
  extensions : List String
  schemas : List PgSchema
  objects : List PgObject
  deriving DecidableEq

/-- Translation of `render_setting_sql`: a dynamic `ALTER DATABASE ... SET`
inside a dollar-quoted anonymous block, then a `SET` for the session. -/
def render_setting_sql (pg_setting : PgSetting) : List String :=
  [ "DO $$ BEGIN",
    "EXECUTE \x27ALTER DATABASE \x27 || current_database() || \x27 SET "
      ++ pg_setting.name ++ " TO " ++ pg_setting.value ++ "\x27;",
    "END; $$;\n",
    "SET " ++ pg_setting.name ++ " TO " ++ pg_setting.value ++ ";" ]

/-- Translation of `render_column_definition`. -/
def render_column_definition (column : PgColumn) : String :=
  String.intercalate " "
    ([quote_ident column.name, column.data_type]
      ++ (if column.nullable = false then ["NOT NULL"] else [])
      ++ (if pyTruthy column.default then
            ["DEFAULT " ++ column.default.getD ""] else []))

/-- Translation of `render_composite_type_column_definition`. -/
def render_composite_type_column_definition (column : PgCompositeColumn) : String :=
  quote_ident column.name ++ " " ++ column.data_type

/-- Translation of `render_exclude_constraint`. -/
def render_exclude_constraint (exclude_data : PgExclude) : String :=
  "EXCLUDE "
    ++ (if pyTruthy exclude_data.index_method then
          "USING " ++ exclude_data.index_method.getD "" ++ " " else "")
    ++ "(" ++ String.intercalate ", "
          (exclude_data.exclusions.map
            (fun e => e.exclude_element ++ " WITH " ++ e.operator))
    ++ ")"

/-- Translation of `table_defining_components`: columns, primary key, unique,
check and exclude constraints, in that order. -/
def table_defining_components (table : PgTable) : List String :=
  table.columns.map (fun c => "  " ++ render_column_definition c)
    ++ (match table.primary_key with
        | some pk => ["  PRIMARY KEY (" ++ String.intercalate ", " pk.columns ++ ")"]
        | none => [])
    ++ table.unique.map (fun u =>
        "  UNIQUE (" ++ String.intercalate ", " u.columns ++ ")")
    ++ table.check.map (fun c => "  CHECK (" ++ c.expression ++ ")")
    ++ table.exclude.map (fun e => "  " ++ render_exclude_constraint e)

/-- Translation of `render_table_sql`: the `CREATE TABLE` statement (the
`options` list is always empty in the source), then optional comment, index
definitions, optional owner, and one `GRANT` per privilege pair. -/
def render_table_sql (table : PgTable) : List String :=
  let options : List String := []
  let post_options : List String :=
    match table.inherits with
    | some p => ["INHERITS (" ++ quote_ident p.schema.name ++ "."
                  ++ quote_ident p.name ++ ")"]
    | none => []
  let ident := quote_ident table.schema.name ++ "." ++ quote_ident table.name
  [ "CREATE TABLE " ++ String.join (options.map (fun o => o ++ " ")) ++ ident
      ++ "\n(\n" ++ String.intercalate ",\n" (table_defining_components table)
      ++ "\n)" ++ String.intercalate " " post_options ++ ";\n" ]
    ++ (match table.description with
        | some d =>
          if d.isEmpty then []
          else ["COMMENT ON TABLE " ++ ident ++ " IS "
                  ++ quote_string (escape_string d) ++ ";\n"]
        | none => [])
    ++ table.indexes.map (fun index => index.definition ++ ";\n")
    ++ (match table.owner with
        | some o => ["ALTER TABLE " ++ quote_ident table.schema.name ++ "."
                      ++ quote_ident table.name ++ " OWNER TO " ++ o.name ++ ";\n"]
        | none => [])
    ++ table.privs.map (fun privilege =>
        "GRANT " ++ privilege.2 ++ " ON TABLE " ++ quote_ident table.schema.name
          ++ "." ++ quote_ident table.name ++ " TO " ++ privilege.1 ++ ";\n")

/-- Translation of `render_argument`: unnamed arguments render the bare data
type; named ones add the quoted name and, unless the default is `None`, a
`DEFAULT` clause. -/
def render_argument (pg_argument : PgArgument) : String :=
  match pg_argument.name with
  | none => pg_argument.data_type
  | some n =>
    quote_ident n ++ " " ++ pg_argument.data_type
      ++ (match pg_argument.default with
          | none => ""
          | some d => " DEFAULT " ++ d)

/-- `'$$' in str(pg_function.src)`: the body text contains the default
dollar-quote delimiter. -/
def containsDoubleDollar (s : String) : Bool :=
  decide ("$$".data <:+: s.data)

/-- Translation of `render_function_sql`. -/
def render_function_sql (pg_function : PgFunction) : List String :=
  let table_arguments :=
    pg_function.arguments.filter (fun a => a.mode == "t")
  let returns_part :=
    "    RETURNS "
      ++ (if table_arguments.isEmpty then
            (if pg_function.returns_set then "SETOF " else "")
              ++ pg_function.return_type
          else
            "TABLE(" ++ String.intercalate ", "
              (table_arguments.map render_argument) ++ ")")
  [ "CREATE FUNCTION \"" ++ pg_function.schema.name ++ "\".\""
      ++ pg_function.name ++ "\"("
      ++ String.intercalate ", "
          ((pg_function.arguments.filter
              (fun a => ["i", "o", "b", "v"].contains a.mode)).map render_argument)
      ++ ")",
    returns_part,
    if containsDoubleDollar pg_function.src then "AS $function$" else "AS $$",
    pg_function.src,
    "$" ++ (if containsDoubleDollar pg_function.src then "function" else "")
      ++ "$ LANGUAGE " ++ pg_function.language ++ " "
      ++ pyUpper pg_function.volatility
      ++ (if pg_function.strict then " STRICT" else "") ++ ";" ]

/-- Translation of `render_trigger_sql`. -/
def render_trigger_sql (pg_trigger : PgTrigger) : List String :=
  let w := if pg_trigger.when == "instead" then "INSTEAD OF"
           else pyUpper pg_trigger.when
  [ "CREATE TRIGGER " ++ pg_trigger.name,
    w ++ " " ++ pyUpper (String.intercalate " OR " pg_trigger.events)
      ++ " ON " ++ pg_trigger.table,
    "FOR EACH " ++ pyUpper pg_trigger.affecteach,
    "EXECUTE PROCEDURE " ++ pg_trigger.function ++ "();" ]

/-- Translation of `render_sequence_sql`; note the schema and sequence names
are interpolated without `quote_ident`. -/
def render_sequence_sql (pg_sequence : PgSequence) : List String :=
  [ "CREATE SEQUENCE " ++ pg_sequence.schema.name ++ "." ++ pg_sequence.name,
    "START WITH " ++ toString pg_sequence.start_value,
    "INCREMENT BY " ++ toString pg_sequence.increment,
    (match pg_sequence.minimum_value with
     | none => "NO MINVALUE"
     | some v => "MINVALUE " ++ toString v),
    (match pg_sequence.maximum_value with
     | none => "NO MAXVALUE"
     | some v => "MAXVALUE " ++ toString v),
    "CACHE 1;" ]

/-- Translation of `render_cast_sql`. -/
def render_cast_sql (pg_cast : PgCast) : List String :=
  [ "CREATE CAST (" ++ pg_cast.source ++ " AS " ++ pg_cast.target
      ++ ") WITH FUNCTION " ++ pg_cast.function ++ "(" ++ pg_cast.source ++ ")"
      ++ (if pg_cast.implicit then " AS IMPLICIT" else "") ++ ";" ]

/-- Translation of `render_row_sql`: columns and values in mapping insertion
order. -/
def render_row_sql (pg_row : PgRow) : List String :=
  [ "INSERT INTO " ++ pg_row.table ++ " ("
      ++ String.intercalate ", " (pg_row.values.map Prod.fst) ++ ") VALUES ("
      ++ String.intercalate ", " (pg_row.values.map Prod.snd) ++ ");" ]

/-- Translation of `render_role_sql`. -/
def render_role_sql (pg_role : PgRole) : List String :=
  let attributes :=
    (if pg_role.login then ["LOGIN"] else [])
      ++ [ if pg_role.super then "SUPERUSER" else "NOSUPERUSER",
           if pg_role.inherit then "INHERIT" else "NOINHERIT",
           if pg_role.createdb then "CREATEDB" else "NOCREATEDB",
           if pg_role.createrole then "CREATEROLE;" else "NOCREATEROLE;" ]
  [ "DO\n$$\nBEGIN",
    "IF NOT EXISTS(SELECT * FROM pg_roles WHERE rolname = \x27"
      ++ pg_role.name ++ "\x27) THEN",
    "CREATE ROLE " ++ pg_role.name,
    String.intercalate " " attributes,
    "END IF;\nEND\n$$;" ]
    ++ pg_role.membership.map (fun membership =>
        "\nGRANT " ++ membership.name ++ " TO " ++ pg_role.name ++ ";")

/-- Translation of `render_view_sql`. -/
def render_view_sql (pg_view : PgView) : List String :=
  [ "CREATE VIEW \"" ++ pg_view.schema.name ++ "\".\"" ++ pg_view.name
      ++ "\" AS",
    pg_view.view_query ]

/-- Translation of `render_composite_type_sql`. -/
def render_composite_type_sql (pg_composite_type : PgCompositeType) : List String :=
  [ "CREATE TYPE " ++ quote_ident pg_composite_type.schema.name ++ "."
      ++ quote_ident pg_composite_type.name ++ " AS (\n"
      ++ String.intercalate ",\n"
          (pg_composite_type.columns.map
            (fun c => "  " ++ render_composite_type_column_definition c))
      ++ "\n);\n" ]

/-- Translation of `render_enum_type_sql`; note the labels pass through
`quote_string` only, without `escape_string`. -/
def render_enum_type_sql (pg_enum_type : PgEnumType) : List String :=
  [ "CREATE TYPE " ++ quote_ident pg_enum_type.schema.name ++ "."
      ++ quote_ident pg_enum_type.name ++ " AS ENUM (\n"
      ++ String.intercalate ",\n"
          (pg_enum_type.labels.map (fun l => "  " ++ quote_string l))
      ++ "\n);\n" ]

/-- Translation of `render_aggregate_sql`.  `pg_aggregate.ident()` (defined
in the `pg_types` module, not under src/) is modelled as the dotted
schema-qualified name. -/
def render_aggregate_sql (pg_aggregate : PgAggregate) : List String :=
  let properties :=
    [ "    SFUNC = " ++ pg_aggregate.sfunc,
      "    STYPE = " ++ pg_aggregate.stype ]
  [ "CREATE AGGREGATE " ++ pg_aggregate.schema.name ++ "." ++ pg_aggregate.name
      ++ " (" ++ String.intercalate ", " (pg_aggregate.arguments.map render_argument)
      ++ ") (\n" ++ String.intercalate ",\n" properties ++ "\n);\n" ]

/-- Translation of `render_schema_sql`: `IF NOT EXISTS` is part of the
literal format string, emitted unconditionally. -/
def render_schema_sql (pg_schema : PgSchema) : List String :=
  [ "CREATE SCHEMA IF NOT EXISTS " ++ quote_ident pg_schema.name ++ ";" ]

/-- The `sql_renderers` dispatch table: one rendering rule per object kind. -/
def sql_renderers : PgObject → List String
  | .setting s => render_setting_sql s
  | .schema s => render_schema_sql s
  | .table t => render_table_sql t
  | .function f => render_function_sql f
  | .sequence s => render_sequence_sql s
  | .view v => render_view_sql v
  | .compositeType c => render_composite_type_sql c
  | .enumType e => render_enum_type_sql e
  | .aggregate a => render_aggregate_sql a
  | .trigger t => render_trigger_sql t
  | .role r => render_role_sql r
  | .cast c => render_cast_sql c
  | .row r => render_row_sql r

/-- Translation of `SqlRenderer.render_foreign_key` (a static method): uses
the foreign key's `name` attribute when present, otherwise synthesizes
`<schema>_<table>_fk_<index>`. -/
def SqlRenderer.render_foreign_key (index : Nat) (schema : PgSchema)
    (table : PgTable) (foreign_key : PgForeignKey) : List String :=
  let key_name :=
    match foreign_key.name with
    | some n => n
    | none => schema.name ++ "_" ++ table.name ++ "_fk_" ++ toString index
  [ "ALTER TABLE " ++ quote_ident schema.name ++ "." ++ quote_ident table.name
      ++ " ADD CONSTRAINT " ++ quote_ident key_name
      ++ " FOREIGN KEY (" ++ String.intercalate ", " foreign_key.columns ++ ")"
      ++ " REFERENCES " ++ quote_ident foreign_key.ref_schema ++ "."
      ++ quote_ident foreign_key.ref_table
      ++ " (" ++ String.intercalate ", " foreign_key.ref_columns ++ ")"
      ++ (if pyTruthy foreign_key.on_update then
            " ON UPDATE " ++ pyUpper (foreign_key.on_update.getD "") else "")
      ++ (if pyTruthy foreign_key.on_delete then
            " ON DELETE " ++ pyUpper (foreign_key.on_delete.getD "") else "")
      ++ ";" ]

/-- The renderer state: the single idempotent-mode flag set on
`SqlRenderer.__init__`. -/
structure SqlRenderer where
  if_not_exists : Bool
  deriving DecidableEq

/-- Translation of `SqlRenderer.create_extension_statements`: one
`CREATE EXTENSION` per declared extension, with `IF NOT EXISTS` exactly when
the flag is set. -/
def SqlRenderer.create_extension_statements (r : SqlRenderer)
    (database : PgDatabase) : List String :=
  let options : List String := if r.if_not_exists then ["IF NOT EXISTS"] else []
  database.extensions.map (fun extension_name =>
    "CREATE EXTENSION " ++ String.join (options.map (fun o => o ++ " "))
      ++ extension_name ++ ";\n")

/-- Stable insertion of a schema into a name-sorted list (used to model
Python's stable `sorted(database.schemas.values(), key=lambda s: s.name)`). -/
def insertSchemaByName (s : PgSchema) : List PgSchema → List PgSchema
  | [] => [s]
  | t :: ts => if s.name ≤ t.name then s :: t :: ts else t :: insertSchemaByName s ts

/-- `sorted(database.schemas.values(), key=lambda s: s.name)`. -/
def sortSchemasByName (l : List PgSchema) : List PgSchema :=
  l.foldr insertSchemaByName []

/-- Translation of `SqlRenderer.render_chunk_sets`: the extension statements,
then per object (in `database.objects` order) a separator chunk and the
object's statements, then every foreign key of every table of every schema
(schemas sorted by name, foreign keys indexed by list position). -/
def SqlRenderer.render_chunk_sets (r : SqlRenderer)
    (database : PgDatabase) : List (List String) :=
  [r.create_extension_statements database]
    ++ database.objects.flatMap (fun pg_object => [["\n"], sql_renderers pg_object])
    ++ (sortSchemasByName database.schemas).flatMap (fun schema =>
        schema.tables.flatMap (fun table =>
          table.foreign_keys.enum.map (fun p =>
            SqlRenderer.render_foreign_key p.1 schema table p.2)))

/-- Modelled from the spec: `iter_join` lives in `pg_db_tools/__init__.py`,
which is not under src/; §4.6 describes the assembler as pure concatenation
with a single separator convention, so it is modelled as interspersing the
separator between the chained chunks. -/
def iter_join (sep : String) (chunks : List String) : List String :=
  List.intersperse sep chunks

/-- Translation of `SqlRenderer.render_chunks`:
`iter_join('\n', chain(*render_chunk_sets(database)))`. -/
def SqlRenderer.render_chunks (r : SqlRenderer) (database : PgDatabase) :
    List String :=
  iter_join "\n" (r.render_chunk_sets database).flatten

/-! ### Dependency graph builder and topological orderer

The graph builder (`pg_db_tools/graph.py`) and the ordering applied to
`database.objects` before rendering are part of this repository but not
under src/ (sql_renderer.py only calls `database_to_graph` and consumes the
ordered `database.objects`).  They are modelled from the specification:
§3 object identity, §4.2 edge-generation rules, §4.3 Kahn's algorithm with
declaration-order tie-break and cycle extraction, and §4.4's rule that
settings always render first. -/

/-- Modelled from the spec: the object identity `(schema, name)` plus kind
(§3, glossary) used as graph node. -/
structure ObjId where
  kind : String
  schema : String
  name : String
  deriving DecidableEq

/-- The identity of an object.  Objects without an owning schema use the
empty schema component; a schema's identity uses its own name. -/
def objId : PgObject → ObjId
  | .setting s => ⟨"setting", "", s.name⟩
  | .schema s => ⟨"schema", s.name, s.name⟩
  | .table t => ⟨"table", t.schema.name, t.name⟩
  | .function f => ⟨"function", f.schema.name, f.name⟩
  | .sequence s => ⟨"sequence", s.schema.name, s.name⟩
  | .view v => ⟨"view", v.schema.name, v.name⟩
  | .compositeType c => ⟨"composite_type", c.schema.name, c.name⟩
  | .enumType e => ⟨"enum_type", e.schema.name, e.name⟩
  | .aggregate a => ⟨"aggregate", a.schema.name, a.name⟩
  | .trigger t => ⟨"trigger", "", t.name⟩
  | .role r => ⟨"role", "", r.name⟩
  | .cast c => ⟨"cast", "", c.source ++ "->" ++ c.target⟩
  | .row r => ⟨"row", "", r.table⟩

/-- Modelled from the spec: resolution of a data-type reference to the
user-defined enum/composite types of the database whose schema-qualified
name it matches (§4.2 "user-defined type referenced by ..."). -/
def userTypeTargets (db : PgDatabase) (ty : String) : List ObjId :=
  db.objects.filterMap (fun o =>
    match o with
    | .enumType e =>
      if ty = e.schema.name ++ "." ++ e.name then some (objId o) else none
    | .compositeType c =>
      if ty = c.schema.name ++ "." ++ c.name then some (objId o) else none
    | _ => none)

/-- Modelled from the spec: resolution of a qualified table/view name. -/
def tableOrViewTargets (db : PgDatabase) (s n : String) : List ObjId :=
  db.objects.filterMap (fun o =>
    match o with
    | .table t => if s = t.schema.name ∧ n = t.name then some (objId o) else none
    | .view v => if s = v.schema.name ∧ n = v.name then some (objId o) else none
    | _ => none)

/-- Modelled from the spec: resolution of a qualified table name (trigger
target). -/
def tableTargets (db : PgDatabase) (qname : String) : List ObjId :=
  db.objects.filterMap (fun o =>
    match o with
    | .table t =>
      if qname = t.schema.name ++ "." ++ t.name then some (objId o) else none
    | _ => none)

/-- Modelled from the spec: resolution of a qualified function name. -/
def functionTargets (db : PgDatabase) (qname : String) : List ObjId :=
  db.objects.filterMap (fun o =>
    match o with
    | .function f =>
      if qname = f.schema.name ++ "." ++ f.name then some (objId o) else none
    | _ => none)

/-- Modelled from the spec: resolution of a role name (role memberships). -/
def roleTargets (db : PgDatabase) (rname : String) : List ObjId :=
  db.objects.filterMap (fun o =>
    match o with
    | .role r => if rname = r.name then some (objId o) else none
    | _ => none)

/-- The owning schema of an object, when it has one (§4.2 "Schema objects
implicitly depend on their owning Schema node"). -/
def owningSchema : PgObject → Option String
  | .table t => some t.schema.name
  | .function f => some f.schema.name
  | .sequence s => some s.schema.name
  | .view v => some v.schema.name
  | .compositeType c => some c.schema.name
  | .enumType e => some e.schema.name
  | .aggregate a => some a.schema.name
  | _ => none

/-- Modelled from the spec: the prerequisites of one object, following the
edge-generation rules of §4.2 (foreign keys deliberately excluded). -/
def objectDeps (db : PgDatabase) (o : PgObject) : List ObjId :=
  (match o with
   | .table t =>
     (match t.inherits with
      | some p => [⟨"table", p.schema.name, p.name⟩]
      | none => [])
       ++ t.columns.flatMap (fun c => userTypeTargets db c.data_type)
   | .compositeType c =>
     c.columns.flatMap (fun col => userTypeTargets db col.data_type)
   | .function f =>
     f.arguments.flatMap (fun a => userTypeTargets db a.data_type)
       ++ userTypeTargets db f.return_type
   | .view v => v.depends.flatMap (fun p => tableOrViewTargets db p.1 p.2)
   | .trigger tr => tableTargets db tr.table ++ functionTargets db tr.function
   | .cast c =>
     functionTargets db c.function ++ userTypeTargets db c.source
       ++ userTypeTargets db c.target
   | .aggregate a => functionTargets db a.sfunc ++ userTypeTargets db a.stype
   | .role r => r.membership.flatMap (fun m => roleTargets db m.name)
   | _ => [])
    ++ (match owningSchema o with
        | some s => [⟨"schema", s, s⟩]
        | none => [])

/-- Modelled from the spec: the directed graph over object identities, an
edge `u → v` meaning "`u` must be emitted after `v`" (§4.2). -/
def graphEdges (db : PgDatabase) : List (ObjId × ObjId) :=
  db.objects.flatMap (fun o => (objectDeps db o).map (fun d => (objId o, d)))

/-- The edge test between two objects of `db`. -/
def edgeFn (db : PgDatabase) (u v : PgObject) : Bool :=
  decide ((objId u, objId v) ∈ graphEdges db)

/-- Whether an object is a `Setting` (rendered first, outside the graph). -/
def isSetting : PgObject → Bool
  | .setting _ => true
  | _ => false

section Kahn

variable {α : Type} [DecidableEq α]

/-- A node is ready when it has no unresolved prerequisite: no outgoing edge
into the remaining set (§4.3). -/
def ready (edge : α → α → Bool) (rem : List α) (u : α) : Bool :=
  rem.all (fun v => !(edge u v))

/-- The successors of `u` inside the remaining set. -/
def succsIn (edge : α → α → Bool) (rem : List α) (u : α) : List α :=
  rem.filter (fun v => edge u v)

/-- `n`-fold expansion of a reached set by successors inside `rem`. -/
def reachN (edge : α → α → Bool) (rem : List α) : Nat → List α → List α
  | 0, s => s
  | n + 1, s =>
    reachN edge rem n (s ++ rem.filter (fun v => s.any (fun u => edge u v)))

/-- Modelled from the spec: standard cycle extraction on the remaining
subgraph (§4.3) — the remaining nodes that can reach themselves through
remaining nodes. -/
def cycleMembers (edge : α → α → Bool) (rem : List α) : List α :=
  rem.filter (fun u =>
    decide (u ∈ reachN edge rem rem.length (succsIn edge rem u)))

/-- Modelled from the spec: Kahn's algorithm (§4.3) — repeatedly emit the
first remaining node (lowest declaration index) with no unresolved outgoing
edge; when none exists, fail with the extracted cycle members.  The fuel
starts at the node count and cannot run out before the remaining set
empties, since every round removes the found node. -/
def kahnAux (edge : α → α → Bool) : Nat → List α → Except (List α) (List α)
  | 0, rem => if rem = [] then .ok [] else .error (cycleMembers edge rem)
  | n + 1, rem =>
    if rem = [] then .ok []
    else
      match rem.find? (ready edge rem) with
      | none => .error (cycleMembers edge rem)
      | some u => (kahnAux edge n (rem.erase u)).map (fun l => u :: l)

/-- Kahn's algorithm over a declaration-ordered node list. -/
def kahnSort (edge : α → α → Bool) (nodes : List α) : Except (List α) (List α) :=
  kahnAux edge nodes.length nodes

end Kahn

/-- Modelled from the spec: the ordering stage — settings first, independent
of the dependency graph (§3, §4.4), then Kahn's order over the remaining
objects (§4.3); on a cycle, the error names the identities of the extracted
cycle members. -/
def orderedObjects (db : PgDatabase) : Except (List ObjId) (List PgObject) :=
  match kahnSort (edgeFn db) (db.objects.filter (fun o => !isSetting o)) with
  | .ok rest => .ok (db.objects.filter (fun o => isSetting o) ++ rest)
  | .error ms => .error (ms.map objId)

/-- The full pipeline on one database (§2): order the objects, then render
them with `SqlRenderer.render_chunks`; a cycle error yields no output at
all. -/
def renderDatabase (r : SqlRenderer) (db : PgDatabase) :
    Except (List ObjId) (List String) :=
  (orderedObjects db).map (fun objs =>
    r.render_chunks { db with objects := objs })

/-! ### Correctness of the modelled Kahn ordering -/

section KahnLemmas

variable {α : Type} [DecidableEq α] {edge : α → α → Bool}

theorem ready_iff {rem : List α} {u : α} :
    ready edge rem u = true ↔ ∀ v ∈ rem, edge u v = false := by
  simp [ready, List.all_eq_true]

theorem kahnAux_ok_mem {n : Nat} {rem L : List α}
    (h : kahnAux edge n rem = .ok L) : ∀ x, x ∈ L ↔ x ∈ rem := by
  induction n generalizing rem L with
  | zero =>
    by_cases hrem : rem = []
    · rw [kahnAux, if_pos hrem] at h
      simp at h
      subst hrem h
      simp
    · rw [kahnAux, if_neg hrem] at h
      simp at h
  | succ n ih =>
    by_cases hrem : rem = []
    · rw [kahnAux, if_pos hrem] at h
      simp at h
      subst hrem h
      simp
    · rw [kahnAux, if_neg hrem] at h
      cases hf : rem.find? (ready edge rem) with
      | none => rw [hf] at h; simp at h
      | some u =>
        rw [hf] at h
        simp only [] at h
        cases hrec : kahnAux edge n (rem.erase u) with
        | error e => rw [hrec] at h; simp [Except.map] at h
        | ok L' =>
          rw [hrec] at h
          simp [Except.map] at h
          subst h
          have hu : u ∈ rem := List.mem_of_find?_eq_some hf
          intro x
          simp only [List.mem_cons]
          constructor
          · rintro (rfl | hx)
            · exact hu
            · exact List.mem_of_mem_erase ((ih hrec x).mp hx)
          · intro hx
            by_cases hxu : x = u
            · exact Or.inl hxu
            · refine Or.inr ((ih hrec x).mpr ?_)
              rw [List.mem_erase_of_ne hxu]
              exact hx

theorem kahnAux_ok_nodup {n : Nat} {rem L : List α}
    (hnd : rem.Nodup) (h : kahnAux edge n rem = .ok L) : L.Nodup := by
  induction n generalizing rem L with
  | zero =>
    by_cases hrem : rem = []
    · rw [kahnAux, if_pos hrem] at h
      simp at h
      subst h
      simp
    · rw [kahnAux, if_neg hrem] at h
      simp at h
  | succ n ih =>
    by_cases hrem : rem = []
    · rw [kahnAux, if_pos hrem] at h
      simp at h
      subst h
      simp
    · rw [kahnAux, if_neg hrem] at h
      cases hf : rem.find? (ready edge rem) with
      | none => rw [hf] at h; simp at h
      | some u =>
        rw [hf] at h
        simp only [] at h
        cases hrec : kahnAux edge n (rem.erase u) with
        | error e => rw [hrec] at h; simp [Except.map] at h
        | ok L' =>
          rw [hrec] at h
          simp [Except.map] at h
          subst h
          have hnd' : (rem.erase u).Nodup := hnd.erase u
          refine List.nodup_cons.mpr ⟨?_, ih hnd' hrec⟩
          intro hmem
          have : u ∈ rem.erase u := (kahnAux_ok_mem hrec u).mp hmem
          rw [hnd.mem_erase_iff] at this
          exact this.1 rfl

theorem kahnAux_ok_order {n : Nat} {rem L : List α}
    (h : kahnAux edge n rem = .ok L) :
    ∀ u v, edge u v = true → v ∈ rem →
      ∀ L₁ L₂, L = L₁ ++ u :: L₂ → v ∈ L₁ := by
  induction n generalizing rem L with
  | zero =>
    by_cases hrem : rem = []
    · intro u v _ hv
      rw [hrem] at hv
      simp at hv
    · rw [kahnAux, if_neg hrem] at h
      simp at h
  | succ n ih =>
    by_cases hrem : rem = []
    · intro u v _ hv
      rw [hrem] at hv
      simp at hv
    · rw [kahnAux, if_neg hrem] at h
      cases hf : rem.find? (ready edge rem) with
      | none => rw [hf] at h; simp at h
      | some w =>
        rw [hf] at h
        simp only [] at h
        cases hrec : kahnAux edge n (rem.erase w) with
        | error e => rw [hrec] at h; simp [Except.map] at h
        | ok L' =>
          rw [hrec] at h
          simp [Except.map] at h
          subst h
          intro u v huv hv L₁ L₂ hdec
          have hready : ready edge rem w = true := List.find?_some hf
          cases L₁ with
          | nil =>
            simp at hdec
            exfalso
            have := (ready_iff.mp hready) v hv
            rw [hdec.1] at this
            rw [huv] at this
            simp at this
          | cons a L₁' =>
            simp at hdec
            obtain ⟨rfl, hdec'⟩ := hdec
            by_cases hvw : v = w
            · exact hvw ▸ List.mem_cons_self _ _
            · have hv' : v ∈ rem.erase w := by
                rw [List.mem_erase_of_ne hvw]; exact hv
              exact List.mem_cons_of_mem _
                (ih hrec u v huv hv' L₁' L₂ hdec')

/-- A nonempty edge path from `u` to `v` through the listed intermediate
nodes. -/
def pathB (edge : α → α → Bool) : α → List α → α → Bool
  | u, [], v => edge u v
  | u, w :: ws, v => edge u w && pathB edge w ws v

/-- A simple cycle: nonempty, duplicate-free, with an edge path from its
head through the remaining members back to its head. -/
def isCycleList (edge : α → α → Bool) : List α → Prop
  | [] => False
  | u :: ws => (u :: ws).Nodup ∧ pathB edge u ws u = true

theorem pathB_append {u v z : α} {xs ys : List α}
    (h₁ : pathB edge u xs v = true) (h₂ : pathB edge v ys z = true) :
    pathB edge u (xs ++ v :: ys) z = true := by
  induction xs generalizing u with
  | nil => simp [pathB] at h₁ ⊢; exact ⟨h₁, h₂⟩
  | cons w ws ih =>
    simp [pathB] at h₁ ⊢
    exact ⟨h₁.1, ih h₁.2⟩

theorem pathB_split {u v w : α} {a b : List α}
    (h : pathB edge u (a ++ w :: b) v = true) :
    pathB edge u a w = true ∧ pathB edge w b v = true := by
  induction a generalizing u with
  | nil => simp [pathB] at h ⊢; exact h
  | cons x xs ih =>
    simp [pathB] at h ⊢
    exact ⟨⟨h.1, (ih h.2).1⟩, (ih h.2).2⟩

theorem mem_reachN_of_mem {rem : List α} {n : Nat} {s : List α} {x : α}
    (hx : x ∈ s) : x ∈ reachN edge rem n s := by
  induction n generalizing s with
  | zero => exact hx
  | succ n ih => exact ih (List.mem_append_left _ hx)

theorem reachN_mono_start {rem : List α} {n : Nat} {s t : List α} {y : α}
    (hsub : ∀ x ∈ s, x ∈ t) (hy : y ∈ reachN edge rem n s) :
    y ∈ reachN edge rem n t := by
  induction n generalizing s t with
  | zero => exact hsub y hy
  | succ n ih =>
    refine ih ?_ hy
    intro x hx
    rcases List.mem_append.mp hx with hx | hx
    · exact List.mem_append_left _ (hsub x hx)
    · rw [List.mem_filter] at hx
      refine List.mem_append_right _ ?_
      rw [List.mem_filter]
      refine ⟨hx.1, ?_⟩
      rw [List.any_eq_true] at hx ⊢
      obtain ⟨u, hu, hedge⟩ := hx.2
      exact ⟨u, hsub u hu, hedge⟩

theorem reachN_step_last {rem : List α} {n : Nat} {s : List α} {x y : α}
    (hx : x ∈ reachN edge rem n s) (hedge : edge x y = true)
    (hy : y ∈ rem) : y ∈ reachN edge rem (n + 1) s := by
  induction n generalizing s with
  | zero =>
    show y ∈ reachN edge rem 0 (s ++ _)
    refine List.mem_append_right _ ?_
    rw [List.mem_filter]
    exact ⟨hy, List.any_eq_true.mpr ⟨x, hx, hedge⟩⟩
  | succ n ih => exact ih hx

theorem reachN_fuel_succ {rem : List α} {n : Nat} {s : List α} {x : α}
    (hx : x ∈ reachN edge rem n s) : x ∈ reachN edge rem (n + 1) s := by
  induction n generalizing s with
  | zero => exact List.mem_append_left _ hx
  | succ n ih => exact ih hx

theorem reachN_fuel_mono {rem : List α} {n m : Nat} {s : List α} {x : α}
    (hnm : n ≤ m) (hx : x ∈ reachN edge rem n s) :
    x ∈ reachN edge rem m s := by
  induction hnm with
  | refl => exact hx
  | step _ ih => exact reachN_fuel_succ ih

theorem pathB_reach {rem : List α} {s : List α} :
    ∀ (zs : List α) (x y : α) (n : Nat), x ∈ reachN edge rem n s →
      pathB edge x zs y = true → (∀ z ∈ zs, z ∈ rem) → y ∈ rem →
      y ∈ reachN edge rem (n + zs.length + 1) s := by
  intro zs
  induction zs with
  | nil =>
    intro x y n hx hp _ hy
    exact reachN_step_last hx hp hy
  | cons w ws ih =>
    intro x y n hx hp hzs hy
    simp [pathB] at hp
    have hw : w ∈ reachN edge rem (n + 1) s :=
      reachN_step_last hx hp.1 (hzs w (List.mem_cons_self _ _))
    have := ih w y (n + 1) hw hp.2
      (fun z hz => hzs z (List.mem_cons_of_mem _ hz)) hy
    have harith : n + 1 + ws.length + 1 = n + (w :: ws).length + 1 := by
      simp; omega
    rwa [harith] at this

/-- Every member of a simple cycle has a same-length edge path through the
cycle back to itself. -/
theorem cycle_rotation {c : List α} (hc : isCycleList edge c) :
    ∀ x ∈ c, ∃ zs, pathB edge x zs x = true ∧ zs.length + 1 = c.length ∧
      ∀ z ∈ zs, z ∈ c := by
  cases c with
  | nil => exact absurd hc (by simp [isCycleList])
  | cons u ws =>
    obtain ⟨-, hpath⟩ := hc
    intro x hx
    rcases List.mem_cons.mp hx with rfl | hx
    · exact ⟨ws, hpath, by simp, fun z hz => List.mem_cons_of_mem _ hz⟩
    · obtain ⟨a, b, rfl⟩ := List.append_of_mem hx
      obtain ⟨h₁, h₂⟩ := pathB_split hpath
      refine ⟨b ++ u :: a, pathB_append h₂ h₁, by simp; omega, ?_⟩
      intro z hz
      rcases List.mem_append.mp hz with hz | hz
      · exact List.mem_cons_of_mem _ (List.mem_append_right _
          (List.mem_cons_of_mem _ hz))
      · rcases List.mem_cons.mp hz with rfl | hz
        · exact List.mem_cons_self _ _
        · exact List.mem_cons_of_mem _ (List.mem_append_left _ hz)

/-- Every cycle member has an edge to another cycle member. -/
theorem cycle_next {c : List α} (hc : isCycleList edge c) :
    ∀ x ∈ c, ∃ y ∈ c, edge x y = true := by
  intro x hx
  obtain ⟨zs, hpath, _, hzs⟩ := cycle_rotation hc x hx
  cases zs with
  | nil => exact ⟨x, hx, hpath⟩
  | cons w ws =>
    simp [pathB] at hpath
    exact ⟨w, hzs w (List.mem_cons_self _ _), hpath.1⟩

/-- Cycle-extraction adequacy: every member of a simple cycle lying inside
the remaining set is named among the extracted cycle members. -/
theorem cycle_subset_cycleMembers {c rem : List α}
    (hc : isCycleList edge c) (hsub : ∀ x ∈ c, x ∈ rem) :
    ∀ x ∈ c, x ∈ cycleMembers edge rem := by
  intro x hx
  have hxrem := hsub x hx
  obtain ⟨zs, hpath, hlen, hzs⟩ := cycle_rotation hc x hx
  have hclen : c.length ≤ rem.length := by
    have hnd : c.Nodup := by
      cases c with
      | nil => exact absurd hc (by simp [isCycleList])
      | cons u ws => exact hc.1
    exact (hnd.subperm hsub).length_le
  have hreach : x ∈ reachN edge rem rem.length (succsIn edge rem x) := by
    cases zs with
    | nil =>
      refine reachN_fuel_mono (Nat.zero_le _) ?_
      show x ∈ succsIn edge rem x
      rw [succsIn, List.mem_filter]
      exact ⟨hxrem, hpath⟩
    | cons w ws =>
      simp [pathB] at hpath
      have hw : w ∈ reachN edge rem 0 (succsIn edge rem x) := by
        show w ∈ succsIn edge rem x
        rw [succsIn, List.mem_filter]
        exact ⟨hsub w (hzs w (List.mem_cons_self _ _)), hpath.1⟩
      have := pathB_reach (s := succsIn edge rem x) ws w x 0 hw hpath.2
        (fun z hz => hsub z ((hzs z (List.mem_cons_of_mem _ hz)))) hxrem
      refine reachN_fuel_mono ?_ this
      simp at hlen
      omega
  rw [cycleMembers, List.mem_filter]
  exact ⟨hxrem, by simpa using hreach⟩

/-- With a simple cycle inside the node set, Kahn's algorithm fails with an
error naming every cycle member. -/
theorem kahnAux_cycle_error {c : List α} (hc : isCycleList edge c) :
    ∀ (n : Nat) (rem : List α), (∀ x ∈ c, x ∈ rem) →
      ∃ ms, kahnAux edge n rem = .error ms ∧ ∀ x ∈ c, x ∈ ms := by
  have hcne : c ≠ [] := by
    cases c with
    | nil => exact absurd hc (by simp [isCycleList])
    | cons u ws => simp
  intro n
  induction n with
  | zero =>
    intro rem hsub
    have hne : rem ≠ [] := by
      obtain ⟨x, hx⟩ := List.exists_mem_of_ne_nil c hcne
      intro he
      rw [he] at hsub
      exact absurd (hsub x hx) (by simp)
    refine ⟨cycleMembers edge rem, ?_, cycle_subset_cycleMembers hc hsub⟩
    rw [kahnAux, if_neg hne]
  | succ n ih =>
    intro rem hsub
    have hne : rem ≠ [] := by
      obtain ⟨x, hx⟩ := List.exists_mem_of_ne_nil c hcne
      intro he
      rw [he] at hsub
      exact absurd (hsub x hx) (by simp)
    cases hf : rem.find? (ready edge rem) with
    | none =>
      refine ⟨cycleMembers edge rem, ?_, cycle_subset_cycleMembers hc hsub⟩
      rw [kahnAux, if_neg hne, hf]
    | some u =>
      have hready : ready edge rem u = true := List.find?_some hf
      have hunotc : u ∉ c := by
        intro huc
        obtain ⟨y, hy, hedge⟩ := cycle_next hc u huc
        have := (ready_iff.mp hready) y (hsub y hy)
        rw [hedge] at this
        simp at this
      have hsub' : ∀ x ∈ c, x ∈ rem.erase u := by
        intro x hx
        have hxu : x ≠ u := fun h => hunotc (h ▸ hx)
        rw [List.mem_erase_of_ne hxu]
        exact hsub x hx
      obtain ⟨ms, hms, hmem⟩ := ih (rem.erase u) hsub'
      refine ⟨ms, ?_, hmem⟩
      rw [kahnAux, if_neg hne, hf]
      show (kahnAux edge n (rem.erase u)).map (fun l => u :: l) = Except.error ms
      rw [hms]
      rfl

end KahnLemmas

/-! ### Structure of the modelled dependency graph -/

theorem mem_userTypeTargets_kind {db : PgDatabase} {ty : String} {d : ObjId}
    (h : d ∈ userTypeTargets db ty) :
    d.kind = "enum_type" ∨ d.kind = "composite_type" := by
  rw [userTypeTargets, List.mem_filterMap] at h
  obtain ⟨o, -, hd⟩ := h
  cases o <;> simp [objId] at hd
  · rcases hd with ⟨-, rfl⟩; simp
  · rcases hd with ⟨-, rfl⟩; simp

theorem mem_tableOrViewTargets_kind {db : PgDatabase} {s n : String} {d : ObjId}
    (h : d ∈ tableOrViewTargets db s n) :
    d.kind = "table" ∨ d.kind = "view" := by
  rw [tableOrViewTargets, List.mem_filterMap] at h
  obtain ⟨o, -, hd⟩ := h
  cases o <;> simp [objId] at hd
  · rcases hd with ⟨-, rfl⟩; simp
  · rcases hd with ⟨-, rfl⟩; simp

theorem mem_tableTargets_kind {db : PgDatabase} {q : String} {d : ObjId}
    (h : d ∈ tableTargets db q) : d.kind = "table" := by
  rw [tableTargets, List.mem_filterMap] at h
  obtain ⟨o, -, hd⟩ := h
  cases o <;> simp [objId] at hd
  rcases hd with ⟨-, rfl⟩; simp

theorem mem_functionTargets_kind {db : PgDatabase} {q : String} {d : ObjId}
    (h : d ∈ functionTargets db q) : d.kind = "function" := by
  rw [functionTargets, List.mem_filterMap] at h
  obtain ⟨o, -, hd⟩ := h
  cases o <;> simp [objId] at hd
  rcases hd with ⟨-, rfl⟩; simp

theorem mem_roleTargets_kind {db : PgDatabase} {q : String} {d : ObjId}
    (h : d ∈ roleTargets db q) : d.kind = "role" := by
  rw [roleTargets, List.mem_filterMap] at h
  obtain ⟨o, -, hd⟩ := h
  cases o <;> simp [objId] at hd
  rcases hd with ⟨-, rfl⟩; simp

/-- No edge ever targets a `Setting`: every §4.2 rule resolves to types,
tables, views, functions, roles or schemas. -/
theorem objectDeps_kind_ne_setting {db : PgDatabase} {o : PgObject} :
    ∀ d ∈ objectDeps db o, d.kind ≠ "setting" := by
  have hut : ∀ ty, ∀ d ∈ userTypeTargets db ty, d.kind ≠ "setting" := by
    intro ty d hd
    rcases mem_userTypeTargets_kind hd with h | h <;> simp [h]
  have htv : ∀ s n, ∀ d ∈ tableOrViewTargets db s n, d.kind ≠ "setting" := by
    intro s n d hd
    rcases mem_tableOrViewTargets_kind hd with h | h <;> simp [h]
  have hflat : ∀ {β : Type} (l : List β) (f : β → List ObjId),
      (∀ b ∈ l, ∀ d ∈ f b, d.kind ≠ "setting") →
      ∀ d ∈ l.flatMap f, d.kind ≠ "setting" := by
    intro β l f hf d hd
    rw [List.mem_flatMap] at hd
    obtain ⟨b, hb, hd⟩ := hd
    exact hf b hb d hd
  intro d hd
  rw [objectDeps.eq_def, List.mem_append] at hd
  rcases hd with hd | hd
  · cases o with
    | table t =>
      rcases List.mem_append.mp hd with hd | hd
      · cases ht : t.inherits with
        | none => rw [ht] at hd; simp at hd
        | some p => rw [ht] at hd; simp at hd; subst hd; simp
      · exact hflat _ _ (fun c _ => hut c.data_type) d hd
    | compositeType c =>
      exact hflat _ _ (fun col _ => hut col.data_type) d hd
    | function f =>
      rcases List.mem_append.mp hd with hd | hd
      · exact hflat _ _ (fun a _ => hut a.data_type) d hd
      · exact hut f.return_type d hd
    | view v =>
      exact hflat _ _ (fun p _ => htv p.1 p.2) d hd
    | trigger tr =>
      rcases List.mem_append.mp hd with hd | hd
      · simp [mem_tableTargets_kind hd]
      · simp [mem_functionTargets_kind hd]
    | cast c =>
      rcases List.mem_append.mp hd with hd | hd
      · rcases List.mem_append.mp hd with hd | hd
        · simp [mem_functionTargets_kind hd]
        · exact hut c.source d hd
      · exact hut c.target d hd
    | aggregate a =>
      rcases List.mem_append.mp hd with hd | hd
      · simp [mem_functionTargets_kind hd]
      · exact hut a.stype d hd
    | role r =>
      refine hflat r.membership (fun m => roleTargets db m.name)
        (fun m _ d hd => ?_) d hd
      simp [mem_roleTargets_kind hd]
    | setting s => exact absurd hd (List.not_mem_nil d)
    | schema s => exact absurd hd (List.not_mem_nil d)
    | sequence s => exact absurd hd (List.not_mem_nil d)
    | enumType e => exact absurd hd (List.not_mem_nil d)
    | row r => exact absurd hd (List.not_mem_nil d)
  · cases hos : owningSchema o with
    | none => rw [hos] at hd; simp at hd
    | some s => rw [hos] at hd; simp at hd; subst hd; simp

/-- A `Setting` has no outgoing edge. -/
theorem objectDeps_setting {db : PgDatabase} {s : PgSetting} :
    objectDeps db (.setting s) = [] := rfl

/-- Only settings carry the `setting` identity kind. -/
theorem objId_kind_setting_iff {o : PgObject} :
    (objId o).kind = "setting" ↔ isSetting o = true := by
  cases o <;> simp [objId, isSetting]

/-- Every graph edge comes from an object of the database and one of its
prerequisites. -/
theorem graphEdges_mem {db : PgDatabase} {a b : ObjId}
    (h : (a, b) ∈ graphEdges db) :
    ∃ o ∈ db.objects, a = objId o ∧ b ∈ objectDeps db o := by
  rw [graphEdges, List.mem_flatMap] at h
  obtain ⟨o, ho, hmem⟩ := h
  rw [List.mem_map] at hmem
  obtain ⟨d, hd, heq⟩ := hmem
  refine ⟨o, ho, ?_, ?_⟩
  · exact (congrArg Prod.fst heq).symm
  · have := (congrArg Prod.snd heq).symm
    simp at this
    exact this ▸ hd

/-- Settings appear at neither end of a graph edge. -/
theorem graphEdges_not_setting {db : PgDatabase} {a b : ObjId}
    (h : (a, b) ∈ graphEdges db) :
    a.kind ≠ "setting" ∧ b.kind ≠ "setting" := by
  obtain ⟨o, _, rfl, hb⟩ := graphEdges_mem h
  refine ⟨?_, objectDeps_kind_ne_setting b hb⟩
  intro hk
  have hs := objId_kind_setting_iff.mp hk
  cases o with
  | setting s => rw [objectDeps_setting] at hb; simp at hb
  | _ => simp [isSetting] at hs

/-! ### Pipeline-level lemmas -/

/-- Unpacking a successful ordering: the ordered list is the settings (in
declaration order) followed by the Kahn order of the non-settings. -/
theorem orderedObjects_ok {db : PgDatabase} {objs : List PgObject}
    (hok : orderedObjects db = .ok objs) :
    ∃ L, kahnSort (edgeFn db) (db.objects.filter (fun o => !isSetting o)) = .ok L ∧
      objs = db.objects.filter (fun o => isSetting o) ++ L := by
  rw [orderedObjects] at hok
  cases hk : kahnSort (edgeFn db) (db.objects.filter (fun o => !isSetting o)) with
  | error ms => rw [hk] at hok; simp at hok
  | ok L =>
    rw [hk] at hok
    simp at hok
    exact ⟨L, rfl, hok.symm⟩

/-- In a successful ordering, a position holds a setting exactly when it
lies inside the settings prefix. -/
theorem orderedObjects_setting_split {db : PgDatabase} {objs : List PgObject}
    (hok : orderedObjects db = .ok objs) :
    ∀ k (hk : k < objs.length),
      (isSetting objs[k] = true ↔
        k < (db.objects.filter (fun o => isSetting o)).length) := by
  obtain ⟨L, hkahn, hsplit⟩ := orderedObjects_ok hok
  rw [kahnSort] at hkahn
  intro k hk
  subst hsplit
  constructor
  · intro hset
    by_contra hge
    push_neg at hge
    have hkL : k - (db.objects.filter (fun o => isSetting o)).length < L.length := by
      rw [List.length_append] at hk
      omega
    rw [List.getElem_append_right hge] at hset
    have hmemL : L[k - (db.objects.filter (fun o => isSetting o)).length] ∈ L :=
      List.getElem_mem _
    have hrest := (kahnAux_ok_mem hkahn _).mp hmemL
    rw [List.mem_filter] at hrest
    simp [hset] at hrest
  · intro hlt
    rw [List.getElem_append_left hlt]
    have hmem := List.getElem_mem
      (show k < (db.objects.filter (fun o => isSetting o)).length from hlt)
    rw [List.mem_filter] at hmem
    exact hmem.2

/-- In a list built by flatMapping two-element lists, the second element of
the `k`-th pair sits at position `2 * k + 1`. -/
theorem flatMap_pair_get {β γ : Type} (l : List β) (f g : β → List γ) :
    ∀ k (hk : k < l.length),
      (l.flatMap (fun o => [f o, g o]))[2 * k + 1]? = some (g l[k]) := by
  induction l with
  | nil => intro k hk; simp at hk
  | cons a l ih =>
    intro k hk
    cases k with
    | zero => simp
    | succ k =>
      have harith : 2 * (k + 1) + 1 = (2 * k + 1) + 1 + 1 := by omega
      rw [harith]
      simp only [List.flatMap_cons, List.cons_append, List.nil_append,
        List.getElem?_cons_succ, List.getElem_cons_succ]
      exact ih k (by simpa using Nat.lt_of_succ_lt_succ hk)

/-- The length of the interleaved separator/block chunk list. -/
theorem chunk_pair_length (l : List PgObject) :
    (l.flatMap (fun pg_object => [["\n"], sql_renderers pg_object])).length =
      2 * l.length := by
  induction l with
  | nil => simp
  | cons a l ih =>
    simp only [List.flatMap_cons, List.length_append, ih, List.length_cons]
    simp
    omega

/-- The statement block of the object at position `k` of `database.objects`
sits at chunk-set position `2 * k + 2`, after the extension chunk and the
interleaved separators. -/
theorem render_chunk_sets_block (r : SqlRenderer) (db : PgDatabase) :
    ∀ k (hk : k < db.objects.length),
      (r.render_chunk_sets db)[2 * k + 2]? = some (sql_renderers db.objects[k]) := by
  intro k hk
  rw [SqlRenderer.render_chunk_sets, List.append_assoc, List.singleton_append,
    List.getElem?_cons_succ]
  have hlen : 2 * k + 1 <
      (db.objects.flatMap (fun pg_object => [["\n"], sql_renderers pg_object])).length := by
    rw [chunk_pair_length]
    omega
  rw [List.getElem?_append_left hlen]
  exact flatMap_pair_get db.objects (fun _ => ["\n"]) sql_renderers k hk

/-! ### Claim theorems over the ordering pipeline -/

/-- C1: for every database and every dependency edge `u → v` of the
(spec-modelled) graph builder — foreign keys excluded by construction —
a successful run of the pipeline orders `v`'s object strictly before `u`'s,
so `v`'s statement block (sitting at chunk-set position `2·k + 2` for the
object at position `k`) appears strictly before `u`'s in the rendered
sequence.  The duplicate-free-identities hypothesis is the spec's §3
identity-uniqueness invariant. -/
theorem c1_order_respects_dependencies (r : SqlRenderer) (db : PgDatabase)
    (hnd : (db.objects.map objId).Nodup) {objs : List PgObject}
    (hok : orderedObjects db = .ok objs) :
    (∀ i j (hi : i < objs.length) (hj : j < objs.length),
      (objId objs[i], objId objs[j]) ∈ graphEdges db → j < i)
    ∧ renderDatabase r db = .ok (r.render_chunks { db with objects := objs })
    ∧ ∀ k (hk : k < objs.length),
        (r.render_chunk_sets { db with objects := objs })[2 * k + 2]? =
          some (sql_renderers objs[k]) := by
  obtain ⟨L, hkahn, hsplit⟩ := orderedObjects_ok hok
  rw [kahnSort] at hkahn
  refine ⟨?_, ?_, ?_⟩
  · intro i j hi hj hedge
    have hkinds := graphEdges_not_setting hedge
    have hiS : ¬ i < (db.objects.filter (fun o => isSetting o)).length := by
      intro hlt
      exact hkinds.1 (objId_kind_setting_iff.mpr
        ((orderedObjects_setting_split hok i hi).mpr hlt))
    have hjS : ¬ j < (db.objects.filter (fun o => isSetting o)).length := by
      intro hlt
      exact hkinds.2 (objId_kind_setting_iff.mpr
        ((orderedObjects_setting_split hok j hj).mpr hlt))
    push_neg at hiS hjS
    subst hsplit
    have hiL : i - (db.objects.filter (fun o => isSetting o)).length < L.length := by
      rw [List.length_append] at hi
      omega
    have hjL : j - (db.objects.filter (fun o => isSetting o)).length < L.length := by
      rw [List.length_append] at hj
      omega
    rw [List.getElem_append_right hiS, List.getElem_append_right hjS] at hedge
    have hndL : L.Nodup :=
      kahnAux_ok_nodup ((hnd.of_map).filter _) hkahn
    have hedgeB : edgeFn db (L[i - (db.objects.filter (fun o => isSetting o)).length])
        (L[j - (db.objects.filter (fun o => isSetting o)).length]) = true := by
      rw [edgeFn, decide_eq_true_eq]
      exact hedge
    have hvrest : L[j - (db.objects.filter (fun o => isSetting o)).length] ∈
        db.objects.filter (fun o => !isSetting o) :=
      (kahnAux_ok_mem hkahn _).mp (List.getElem_mem _)
    have hdec : L = L.take (i - (db.objects.filter (fun o => isSetting o)).length)
        ++ L[i - (db.objects.filter (fun o => isSetting o)).length]
        :: L.drop (i - (db.objects.filter (fun o => isSetting o)).length + 1) := by
      conv_lhs => rw [← List.take_append_drop
        (i - (db.objects.filter (fun o => isSetting o)).length) L]
      rw [List.drop_eq_getElem_cons hiL]
    have hvtake := kahnAux_ok_order hkahn _ _ hedgeB hvrest _ _ hdec
    obtain ⟨m, hm, hmv⟩ := List.mem_iff_getElem.mp hvtake
    have hmlt : m < i - (db.objects.filter (fun o => isSetting o)).length := by
      have := List.length_take_le
        (i - (db.objects.filter (fun o => isSetting o)).length) L
      omega
    have hmL : m < L.length := by
      have := List.length_take_le' (i - (db.objects.filter (fun o => isSetting o)).length) L
      omega
    rw [List.getElem_take] at hmv
    have hmj : m = j - (db.objects.filter (fun o => isSetting o)).length :=
      (hndL.getElem_inj_iff).mp hmv
    omega
  · rw [renderDatabase, hok]
    rfl
  · intro k hk
    exact render_chunk_sets_block r { db with objects := objs } k hk

/-- C2: a database whose non-foreign-key dependency graph contains a
(simple) cycle among its non-setting objects fails with a
`CyclicDependencyError` naming every object identity on the cycle, and the
pipeline returns no output statements at all. -/
theorem c2_cycle_rejection (r : SqlRenderer) (db : PgDatabase)
    (c : List PgObject) (hc : isCycleList (edgeFn db) c)
    (hsub : ∀ x ∈ c, x ∈ db.objects.filter (fun o => !isSetting o)) :
    ∃ ms, renderDatabase r db = .error ms ∧ (∀ x ∈ c, objId x ∈ ms) ∧
      ∀ out, renderDatabase r db ≠ .ok out := by
  obtain ⟨ms, hms, hmem⟩ := kahnAux_cycle_error hc
    (db.objects.filter (fun o => !isSetting o)).length
    (db.objects.filter (fun o => !isSetting o)) hsub
  have hre : renderDatabase r db = .error (ms.map objId) := by
    rw [renderDatabase, orderedObjects, kahnSort, hms]
    rfl
  refine ⟨ms.map objId, hre, fun x hx => List.mem_map_of_mem _ (hmem x hx), ?_⟩
  intro out hout
  rw [hre] at hout
  simp at hout

/-- C4: settings render first — in every successful ordering all setting
objects precede all non-setting objects, wherever the settings were
declared — and each setting renders as the dollar-quoted dynamic
`ALTER DATABASE ... SET` block followed by a session `SET`. -/
theorem c4_settings_first (db : PgDatabase) {objs : List PgObject}
    (hok : orderedObjects db = .ok objs) :
    (∀ i j (hi : i < objs.length) (hj : j < objs.length),
      isSetting objs[i] = true → isSetting objs[j] = false → i < j)
    ∧ ∀ s : PgSetting, sql_renderers (.setting s) =
        [ "DO $$ BEGIN",
          "EXECUTE \x27ALTER DATABASE \x27 || current_database() || \x27 SET "
            ++ s.name ++ " TO " ++ s.value ++ "\x27;",
          "END; $$;\n",
          "SET " ++ s.name ++ " TO " ++ s.value ++ ";" ] := by
  refine ⟨?_, fun s => rfl⟩
  intro i j hi hj hiset hjset
  have h1 := (orderedObjects_setting_split hok i hi).mp hiset
  have h2 : ¬ j < (db.objects.filter (fun o => isSetting o)).length := by
    intro hlt
    rw [(orderedObjects_setting_split hok j hj).mpr hlt] at hjset
    cases hjset
  omega

/-- A table whose column uses the enum type `public.status`: the graph gives
it an edge to the enum. -/
def exEnumC1 : PgEnumType := ⟨⟨"public"⟩, "status", ["open", "closed"]⟩

/-- The table depending on `public.status`. -/
def exTableC1 : PgTable :=
  ⟨⟨"public"⟩, "ticket", [⟨"state", "public.status", true, none⟩],
    none, [], [], [], none, none, [], none, [], []⟩

/-- A database declaring the table before the enum it depends on. -/
def exDbC1 : PgDatabase :=
  ⟨[], [], [.table exTableC1, .enumType exEnumC1]⟩

theorem c1_witness :
    ((objId (PgObject.table exTableC1), objId (PgObject.enumType exEnumC1))
      ∈ graphEdges exDbC1) ∧ (0 : Nat) < 1 :=
  ⟨by decide,
    (c1_order_respects_dependencies ⟨false⟩ exDbC1 (by decide)
      (show orderedObjects exDbC1 =
        .ok [.enumType exEnumC1, .table exTableC1] from by rfl)).1
      1 0 (by decide) (by decide) (by decide)⟩

/-- Two composite types that each reference the other as a field type. -/
def exCompA : PgCompositeType := ⟨⟨"public"⟩, "pair_a", [⟨"other", "public.pair_b"⟩]⟩

/-- The second half of the mutual pair. -/
def exCompB : PgCompositeType := ⟨⟨"public"⟩, "pair_b", [⟨"other", "public.pair_a"⟩]⟩

/-- A database with a two-cycle of composite types. -/
def exDbC2 : PgDatabase :=
  ⟨[], [], [.compositeType exCompA, .compositeType exCompB]⟩

theorem c2_witness :
    ∃ ms, renderDatabase ⟨false⟩ exDbC2 = .error ms ∧
      (∀ x ∈ [PgObject.compositeType exCompA, PgObject.compositeType exCompB],
        objId x ∈ ms) ∧
      ∀ out, renderDatabase ⟨false⟩ exDbC2 ≠ .ok out :=
  c2_cycle_rejection ⟨false⟩ exDbC2
    [.compositeType exCompA, .compositeType exCompB]
    ⟨by decide, by decide⟩ (by decide)

/-- A setting declared last in the object sequence. -/
def exSettingC4 : PgSetting := ⟨"search_path", "public"⟩

/-- An enum declared before the setting. -/
def exEnumC4 : PgEnumType := ⟨⟨"public"⟩, "mood", ["happy"]⟩

/-- A database declaring the setting after a non-setting object. -/
def exDbC4 : PgDatabase :=
  ⟨[], [], [.enumType exEnumC4, .setting exSettingC4]⟩

theorem c4_witness :
    (0 : Nat) < 1 ∧ sql_renderers (PgObject.setting exSettingC4) =
      [ "DO $$ BEGIN",
        "EXECUTE \x27ALTER DATABASE \x27 || current_database() || \x27 SET search_path TO public\x27;",
        "END; $$;\n",
        "SET search_path TO public;" ] := by
  have h := c4_settings_first exDbC4
    (show orderedObjects exDbC4 =
      .ok [.setting exSettingC4, .enumType exEnumC4] from by rfl)
  exact ⟨h.1 0 1 (by decide) (by decide) (by decide) (by decide),
    h.2 exSettingC4⟩

/-! ### Claim theorems over the renderers -/

/-- A minimal table used to exhibit the absent `IF NOT EXISTS` on
`CREATE TABLE`. -/
def exTableC3 : PgTable :=
  ⟨⟨"public"⟩, "t", [⟨"c", "text", true, none⟩],
    none, [], [], [], none, none, [], none, [], []⟩

/-- C3 counterexample: with the idempotent-mode flag disabled the rendered
output still contains an `IF NOT EXISTS` (on `CREATE SCHEMA`), and with it
enabled no `CREATE TABLE IF NOT EXISTS` ever appears — the flag does not
toggle the clause uniformly over the three statement kinds. -/
theorem c3_counterexample :
    (∃ stmt ∈ SqlRenderer.render_chunks ⟨false⟩ ⟨[], [], [.schema ⟨"s", []⟩]⟩,
        "IF NOT EXISTS".data <:+: stmt.data)
    ∧ ¬ (∃ stmt ∈ SqlRenderer.render_chunks ⟨true⟩ ⟨[], [], [.table exTableC3]⟩,
        "CREATE TABLE IF NOT EXISTS".data <:+: stmt.data) := by
  constructor
  · refine ⟨"CREATE SCHEMA IF NOT EXISTS \"s\";", by decide, by decide⟩
  · decide

/-- C3 amended: the idempotent-mode flag toggles `IF NOT EXISTS` only on
`CREATE EXTENSION` statements; `CREATE SCHEMA` always carries the clause
(it is hard-coded in the format string) and `CREATE TABLE` never does (the
`options` list is always empty). -/
theorem c3_amended (r : SqlRenderer) (db : PgDatabase) (s : PgSchema)
    (t : PgTable) :
    r.create_extension_statements db =
      db.extensions.map (fun extension_name =>
        "CREATE EXTENSION " ++ (if r.if_not_exists then "IF NOT EXISTS " else "")
          ++ extension_name ++ ";\n")
    ∧ render_schema_sql s =
        ["CREATE SCHEMA IF NOT EXISTS " ++ quote_ident s.name ++ ";"]
    ∧ (render_table_sql t).head? = some ("CREATE TABLE "
        ++ quote_ident t.schema.name ++ "." ++ quote_ident t.name ++ "\n(\n"
        ++ String.intercalate ",\n" (table_defining_components t) ++ "\n)"
        ++ String.intercalate " " (match t.inherits with
            | some p => ["INHERITS (" ++ quote_ident p.schema.name ++ "."
                          ++ quote_ident p.name ++ ")"]
            | none => []) ++ ";\n") := by
  refine ⟨?_, rfl, rfl⟩
  rw [SqlRenderer.create_extension_statements]
  cases hr : r.if_not_exists <;> simp <;> exact fun a _ => rfl

/-- A sequence whose name contains a space, showing the missing quoting. -/
def exSeqC5 : PgSequence := ⟨⟨"public"⟩, "my seq", 1, 1, none, none⟩

/-- An enum label containing a single quote, showing the missing escaping. -/
def exEnumC5 : PgEnumType := ⟨⟨"public"⟩, "quoted", ["it\x27s"]⟩

/-- A table whose primary-key column name contains a space: the column
definition quotes it, the `PRIMARY KEY` copy does not. -/
def exTableC5pk : PgTable :=
  ⟨⟨"public"⟩, "t2", [⟨"my col", "text", true, none⟩], some ⟨["my col"]⟩,
    [], [], [], none, none, [], none, [], []⟩

set_option maxRecDepth 4096 in
/-- C5 counterexample: `render_sequence_sql` interpolates the schema and
sequence names without `quote_ident` (the quoted form appears nowhere in
its output), the `PRIMARY KEY` clause of `CREATE TABLE` joins its column
identifiers raw, and `render_enum_type_sql` single-quotes labels without
doubling embedded single quotes. -/
theorem c5_counterexample :
    (render_sequence_sql exSeqC5).head? = some "CREATE SEQUENCE public.my seq"
    ∧ (∀ stmt ∈ render_sequence_sql exSeqC5,
        ¬ (quote_ident "my seq").data <:+: stmt.data)
    ∧ ("PRIMARY KEY (my col)".data <:+:
        ((render_table_sql exTableC5pk).head?.getD "").data)
    ∧ ¬ (("PRIMARY KEY (" ++ quote_ident "my col" ++ ")").data <:+:
        ((render_table_sql exTableC5pk).head?.getD "").data)
    ∧ ((quote_string "it\x27s").data <:+:
        ((render_enum_type_sql exEnumC5).head?.getD "").data)
    ∧ ¬ ((quote_string (escape_string "it\x27s")).data <:+:
        ((render_enum_type_sql exEnumC5).head?.getD "").data) := by
  refine ⟨rfl, by decide, by decide, by decide, by decide, by decide⟩

/-- A table carrying a description with an embedded quote. -/
def exTableC5 : PgTable :=
  ⟨⟨"s"⟩, "t", [], none, [], [], [], none, some "it\x27s", [], none, [], []⟩

/-- C5 amended: the schema/table/type names of `CREATE SCHEMA`,
`CREATE TABLE`, `CREATE TYPE` (enum and composite) and `COMMENT ON TABLE`
statements, and the column names of column definitions and composite-type
fields, pass through `quote_ident`, and table descriptions have embedded
single quotes doubled before single-quoting; but `render_sequence_sql`
interpolates its schema and sequence names raw, the `PRIMARY KEY` and
`UNIQUE` column lists are joined raw, and enum labels are single-quoted
without `escape_string`. -/
theorem c5_amended (sq : PgSequence) (e : PgEnumType) (s : PgSchema)
    (t : PgTable) (column : PgColumn) (ct : PgCompositeType)
    (col : PgCompositeColumn) :
    render_schema_sql s =
      ["CREATE SCHEMA IF NOT EXISTS " ++ quote_ident s.name ++ ";"]
    ∧ (render_table_sql t).head? = some ("CREATE TABLE "
        ++ quote_ident t.schema.name ++ "." ++ quote_ident t.name ++ "\n(\n"
        ++ String.intercalate ",\n" (table_defining_components t) ++ "\n)"
        ++ String.intercalate " " (match t.inherits with
            | some p => ["INHERITS (" ++ quote_ident p.schema.name ++ "."
                          ++ quote_ident p.name ++ ")"]
            | none => []) ++ ";\n")
    ∧ (∃ rest, render_column_definition column =
        String.intercalate " " (quote_ident column.name :: rest))
    ∧ render_composite_type_sql ct = ["CREATE TYPE "
        ++ quote_ident ct.schema.name ++ "." ++ quote_ident ct.name
        ++ " AS (\n" ++ String.intercalate ",\n" (ct.columns.map
            (fun c => "  " ++ render_composite_type_column_definition c))
        ++ "\n);\n"]
    ∧ render_composite_type_column_definition col =
        quote_ident col.name ++ " " ++ col.data_type
    ∧ (∀ d, t.description = some d → d.isEmpty = false →
        "COMMENT ON TABLE " ++ quote_ident t.schema.name ++ "."
          ++ quote_ident t.name ++ " IS " ++ quote_string (escape_string d)
          ++ ";\n" ∈ render_table_sql t)
    ∧ (∀ pk, t.primary_key = some pk →
        "  PRIMARY KEY (" ++ String.intercalate ", " pk.columns ++ ")"
          ∈ table_defining_components t)
    ∧ (∀ u ∈ t.unique,
        "  UNIQUE (" ++ String.intercalate ", " u.columns ++ ")"
          ∈ table_defining_components t)
    ∧ (render_sequence_sql sq).head? =
        some ("CREATE SEQUENCE " ++ sq.schema.name ++ "." ++ sq.name)
    ∧ render_enum_type_sql e = ["CREATE TYPE " ++ quote_ident e.schema.name
        ++ "." ++ quote_ident e.name ++ " AS ENUM (\n"
        ++ String.intercalate ",\n"
            (e.labels.map (fun l => "  " ++ quote_string l)) ++ "\n);\n"] := by
  refine ⟨rfl, rfl, ⟨_, rfl⟩, rfl, rfl, ?_, ?_, ?_, rfl, rfl⟩
  · intro d hd hne
    simp only [render_table_sql]
    refine List.mem_append.mpr (Or.inl ?_)
    refine List.mem_append.mpr (Or.inl ?_)
    refine List.mem_append.mpr (Or.inl ?_)
    refine List.mem_append.mpr (Or.inr ?_)
    rw [hd]
    simp [hne, String.append_assoc]
  · intro pk hpk
    simp only [table_defining_components]
    refine List.mem_append.mpr (Or.inl ?_)
    refine List.mem_append.mpr (Or.inl ?_)
    refine List.mem_append.mpr (Or.inl ?_)
    refine List.mem_append.mpr (Or.inr ?_)
    rw [hpk]
    simp
  · intro u hu
    simp only [table_defining_components]
    refine List.mem_append.mpr (Or.inl ?_)
    refine List.mem_append.mpr (Or.inl ?_)
    refine List.mem_append.mpr (Or.inr ?_)
    exact List.mem_map_of_mem _ hu

theorem c5_witness :
    ("COMMENT ON TABLE \"s\".\"t\" IS \x27it\x27\x27s\x27;\n"
      ∈ render_table_sql exTableC5)
    ∧ "  PRIMARY KEY (my col)" ∈ table_defining_components exTableC5pk := by
  have h := c5_amended exSeqC5 exEnumC5 ⟨"s", []⟩ exTableC5
    ⟨"c", "text", true, none⟩ ⟨⟨"p"⟩, "ct", []⟩ ⟨"f", "integer"⟩
  have h2 := c5_amended exSeqC5 exEnumC5 ⟨"s", []⟩ exTableC5pk
    ⟨"c", "text", true, none⟩ ⟨⟨"p"⟩, "ct", []⟩ ⟨"f", "integer"⟩
  refine ⟨h.2.2.2.2.2.1 "it\x27s" rfl rfl, ?_⟩
  have hpk := h2.2.2.2.2.2.2.1 ⟨["my col"]⟩ rfl
  exact hpk

/-- The per-object chunk sets of `render_chunk_sets`: a separator chunk and
the object's statements, in `database.objects` order. -/
def objectChunkSets (database : PgDatabase) : List (List String) :=
  database.objects.flatMap (fun pg_object => [["\n"], sql_renderers pg_object])

/-- The deferred foreign-key chunk sets of `render_chunk_sets`: one
statement per foreign key, schemas sorted by name, table-then-index order. -/
def foreignKeyChunkSets (database : PgDatabase) : List (List String) :=
  (sortSchemasByName database.schemas).flatMap (fun schema =>
    schema.tables.flatMap (fun table =>
      table.foreign_keys.enum.map (fun p =>
        SqlRenderer.render_foreign_key p.1 schema table p.2)))

/-- First table of the mutual-foreign-key pair. -/
def exTableA : PgTable :=
  ⟨⟨"public"⟩, "a", [⟨"id", "integer", true, none⟩], none, [], [], [],
    none, none, [], none, [],
    [⟨none, ["rid"], "public", "b", ["id"], none, none⟩]⟩

/-- Second table of the mutual-foreign-key pair. -/
def exTableB : PgTable :=
  ⟨⟨"public"⟩, "b", [⟨"id", "integer", true, none⟩], none, [], [], [],
    none, none, [], none, [],
    [⟨none, ["rid"], "public", "a", ["id"], none, none⟩]⟩

/-- A database with two tables each holding a foreign key to the other. -/
def exDbC6 : PgDatabase :=
  ⟨[], [⟨"public", [exTableA, exTableB]⟩], [.table exTableA, .table exTableB]⟩

/-- C6: the chunk-set sequence is exactly extensions, then the object
blocks, then the foreign-key statements, so every foreign-key
`ALTER TABLE` appears strictly after every object-creation statement; and
the mutual-foreign-key database renders two `CREATE TABLE` blocks followed
by its two `ALTER TABLE` statements with no cycle error. -/
theorem c6_foreign_keys_last (r : SqlRenderer) (db : PgDatabase) :
    (r.render_chunk_sets db =
      [r.create_extension_statements db] ++ objectChunkSets db
        ++ foreignKeyChunkSets db)
    ∧ (∀ block ∈ foreignKeyChunkSets db, ∀ stmt ∈ block,
        ∃ rest, stmt = "ALTER TABLE " ++ rest)
    ∧ (renderDatabase ⟨false⟩ exDbC6 =
        .ok (SqlRenderer.render_chunks ⟨false⟩
          { exDbC6 with objects := [.table exTableA, .table exTableB] })
      ∧ objectChunkSets exDbC6 =
          [ ["\n"], ["CREATE TABLE \"public\".\"a\"\n(\n  \"id\" integer\n);\n"],
            ["\n"], ["CREATE TABLE \"public\".\"b\"\n(\n  \"id\" integer\n);\n"] ]
      ∧ foreignKeyChunkSets exDbC6 =
          [ ["ALTER TABLE \"public\".\"a\" ADD CONSTRAINT \"public_a_fk_0\" FOREIGN KEY (rid) REFERENCES \"public\".\"b\" (id);"],
            ["ALTER TABLE \"public\".\"b\" ADD CONSTRAINT \"public_b_fk_0\" FOREIGN KEY (rid) REFERENCES \"public\".\"a\" (id);"] ]) := by
  refine ⟨rfl, ?_, by rfl, by rfl, by rfl⟩
  intro block hb stmt hs
  rw [foreignKeyChunkSets, List.mem_flatMap] at hb
  obtain ⟨schema, -, hb⟩ := hb
  rw [List.mem_flatMap] at hb
  obtain ⟨table, -, hb⟩ := hb
  rw [List.mem_map] at hb
  obtain ⟨p, -, hb⟩ := hb
  subst hb
  rw [SqlRenderer.render_foreign_key] at hs
  simp at hs
  subst hs
  simp only [String.append_assoc]
  exact ⟨_, rfl⟩

theorem c6_witness :
    ∃ rest,
      "ALTER TABLE \"public\".\"a\" ADD CONSTRAINT \"public_a_fk_0\" FOREIGN KEY (rid) REFERENCES \"public\".\"b\" (id);"
        = "ALTER TABLE " ++ rest :=
  (c6_foreign_keys_last ⟨false⟩ exDbC6).2.1
    ["ALTER TABLE \"public\".\"a\" ADD CONSTRAINT \"public_a_fk_0\" FOREIGN KEY (rid) REFERENCES \"public\".\"b\" (id);"]
    (by decide)
    "ALTER TABLE \"public\".\"a\" ADD CONSTRAINT \"public_a_fk_0\" FOREIGN KEY (rid) REFERENCES \"public\".\"b\" (id);"
    (by decide)

/-- The foreign-key statement format, parameterized by the constraint
name. -/
def foreignKeyStatement (schema : PgSchema) (table : PgTable)
    (foreign_key : PgForeignKey) (key_name : String) : String :=
  "ALTER TABLE " ++ quote_ident schema.name ++ "." ++ quote_ident table.name
    ++ " ADD CONSTRAINT " ++ quote_ident key_name
    ++ " FOREIGN KEY (" ++ String.intercalate ", " foreign_key.columns ++ ")"
    ++ " REFERENCES " ++ quote_ident foreign_key.ref_schema ++ "."
    ++ quote_ident foreign_key.ref_table
    ++ " (" ++ String.intercalate ", " foreign_key.ref_columns ++ ")"
    ++ (if pyTruthy foreign_key.on_update then
          " ON UPDATE " ++ pyUpper (foreign_key.on_update.getD "") else "")
    ++ (if pyTruthy foreign_key.on_delete then
          " ON DELETE " ++ pyUpper (foreign_key.on_delete.getD "") else "")
    ++ ";"

/-- C7: the emitted `ALTER TABLE` uses the foreign key's explicit name when
it carries one, and otherwise the synthesized
`<schema>_<table>_fk_<index>` constraint name. -/
theorem c7_foreign_key_naming (index : Nat) (schema : PgSchema)
    (table : PgTable) (foreign_key : PgForeignKey) :
    (∀ n, foreign_key.name = some n →
      SqlRenderer.render_foreign_key index schema table foreign_key =
        [foreignKeyStatement schema table foreign_key n])
    ∧ (foreign_key.name = none →
      SqlRenderer.render_foreign_key index schema table foreign_key =
        [foreignKeyStatement schema table foreign_key
          (schema.name ++ "_" ++ table.name ++ "_fk_" ++ toString index)]) := by
  constructor
  · intro n hn
    rw [SqlRenderer.render_foreign_key, hn]
    rfl
  · intro hn
    rw [SqlRenderer.render_foreign_key, hn]
    rfl

/-- The `sales` schema of the spec's naming example. -/
def exSchemaC7 : PgSchema := ⟨"sales", []⟩

/-- The `orders` table of the spec's naming example. -/
def exTableC7 : PgTable :=
  ⟨⟨"sales"⟩, "orders", [], none, [], [], [], none, none, [], none, [], []⟩

/-- An unnamed foreign key at list index 0. -/
def exFkC7 : PgForeignKey :=
  ⟨none, ["customer_id"], "sales", "customers", ["id"], none, none⟩

theorem c7_witness :
    SqlRenderer.render_foreign_key 0 exSchemaC7 exTableC7 exFkC7 =
      ["ALTER TABLE \"sales\".\"orders\" ADD CONSTRAINT \"sales_orders_fk_0\" FOREIGN KEY (customer_id) REFERENCES \"sales\".\"customers\" (id);"] := by
  have h := (c7_foreign_key_naming 0 exSchemaC7 exTableC7 exFkC7).2 rfl
  rw [h]
  rfl

/-- C8: the `CREATE FUNCTION` signature holds exactly the in/out/inout/
variadic-mode arguments (mode letters `i`/`o`/`b`/`v`); table-mode (`t`)
arguments instead populate `RETURNS TABLE(...)` when present; the body is
dollar-quoted with the `$function$` tag exactly when it contains `$$`
(otherwise with `$$`, matching open and close tags); and the trailing
clause states the language, upper-cased volatility and `STRICT` when
applicable. -/
theorem c8_function_rendering (pg_function : PgFunction) :
    (render_function_sql pg_function).length = 5
    ∧ (render_function_sql pg_function)[0]? = some ("CREATE FUNCTION \""
        ++ pg_function.schema.name ++ "\".\"" ++ pg_function.name ++ "\"("
        ++ String.intercalate ", "
            ((pg_function.arguments.filter (fun a =>
                ["i", "o", "b", "v"].contains a.mode)).map render_argument)
        ++ ")")
    ∧ (pg_function.arguments.filter (fun a => a.mode == "t") ≠ [] →
        (render_function_sql pg_function)[1]? = some ("    RETURNS TABLE("
          ++ String.intercalate ", "
              ((pg_function.arguments.filter (fun a => a.mode == "t")).map
                render_argument) ++ ")"))
    ∧ (pg_function.arguments.filter (fun a => a.mode == "t") = [] →
        (render_function_sql pg_function)[1]? = some ("    RETURNS "
          ++ (if pg_function.returns_set then "SETOF " else "")
          ++ pg_function.return_type))
    ∧ (render_function_sql pg_function)[3]? = some pg_function.src
    ∧ ("$$".data <:+: pg_function.src.data →
        (render_function_sql pg_function)[2]? = some "AS $function$"
        ∧ (render_function_sql pg_function)[4]? = some ("$function$ LANGUAGE "
            ++ pg_function.language ++ " " ++ pyUpper pg_function.volatility
            ++ (if pg_function.strict then " STRICT" else "") ++ ";"))
    ∧ (¬ "$$".data <:+: pg_function.src.data →
        (render_function_sql pg_function)[2]? = some "AS $$"
        ∧ (render_function_sql pg_function)[4]? = some ("$$ LANGUAGE "
            ++ pg_function.language ++ " " ++ pyUpper pg_function.volatility
            ++ (if pg_function.strict then " STRICT" else "") ++ ";")) := by
  refine ⟨rfl, rfl, ?_, ?_, rfl, ?_, ?_⟩
  · intro hne
    have hemp : (pg_function.arguments.filter (fun a => a.mode == "t")).isEmpty
        = false := by
      cases he : pg_function.arguments.filter (fun a => a.mode == "t") with
      | nil => exact absurd he hne
      | cons x xs => rfl
    simp [render_function_sql, hemp]
    rw [← String.append_assoc, ← String.append_assoc]
    rfl
  · intro he
    have hemp : (pg_function.arguments.filter (fun a => a.mode == "t")).isEmpty
        = true := by rw [he]; rfl
    simp [render_function_sql, hemp, String.append_assoc]
  · intro hdd
    have hb : containsDoubleDollar pg_function.src = true := by
      rw [containsDoubleDollar]
      exact decide_eq_true hdd
    constructor <;> simp [render_function_sql, hb]
  · intro hdd
    have hb : containsDoubleDollar pg_function.src = false := by
      rw [containsDoubleDollar]
      exact decide_eq_false hdd
    constructor <;> simp [render_function_sql, hb]

/-- A function with one in-mode and one table-mode argument and a body
containing the default `$$` delimiter. -/
def exFnC8 : PgFunction :=
  ⟨⟨"public"⟩, "f", [⟨some "x", "integer", "i", none⟩,
    ⟨some "y", "text", "t", none⟩], false, "void",
    "SELECT $$lit$$;", "sql", "volatile", true⟩

/-- A function with no arguments and a plain body. -/
def exFnC8b : PgFunction :=
  ⟨⟨"public"⟩, "g", [], false, "integer", "SELECT 1;", "sql", "stable", false⟩

theorem c8_witness :
    (render_function_sql exFnC8)[2]? = some "AS $function$"
    ∧ (render_function_sql exFnC8)[1]? = some "    RETURNS TABLE(\"y\" text)"
    ∧ (render_function_sql exFnC8b)[2]? = some "AS $$"
    ∧ (render_function_sql exFnC8b)[4]? = some "$$ LANGUAGE sql STABLE;" := by
  have h1 := c8_function_rendering exFnC8
  have h2 := c8_function_rendering exFnC8b
  refine ⟨(h1.2.2.2.2.2.1 (by decide)).1, ?_, (h2.2.2.2.2.2.2 (by decide)).1,
    ?_⟩
  · have := h1.2.2.1 (by decide)
    exact this
  · have := (h2.2.2.2.2.2.2 (by decide)).2
    exact this

/-- C9: rendering is a pure function of the renderer configuration and the
input database — two renderer instances with the same idempotent-mode flag
produce identical statement sequences on equal inputs, with no dependence
on any other state. -/
theorem c9_determinism (r₁ r₂ : SqlRenderer) (db₁ db₂ : PgDatabase)
    (hr : r₁.if_not_exists = r₂.if_not_exists) (hdb : db₁ = db₂) :
    r₁.render_chunks db₁ = r₂.render_chunks db₂
    ∧ renderDatabase r₁ db₁ = renderDatabase r₂ db₂ := by
  cases r₁
  cases r₂
  cases hr
  cases hdb
  exact ⟨rfl, rfl⟩

theorem c9_witness :
    SqlRenderer.render_chunks ⟨true⟩ ⟨["citext"], [], []⟩ =
      SqlRenderer.render_chunks ⟨true⟩ ⟨["citext"], [], []⟩
    ∧ renderDatabase ⟨true⟩ ⟨["citext"], [], []⟩ =
      renderDatabase ⟨true⟩ ⟨["citext"], [], []⟩ :=
  c9_determinism ⟨true⟩ ⟨true⟩ ⟨["citext"], [], []⟩ ⟨["citext"], [], []⟩ rfl rfl

/-- The number of double-quote characters in a string. -/
def countQuotes (s : String) : Nat := s.data.count '\x22'

/-- C10: `quote_ident` returns exactly a double quote, the string unchanged,
and a double quote — embedded double quotes are never doubled or escaped,
so an identifier containing one yields three quote characters (unbalanced
quoting). -/
theorem c10_quote_ident_plain :
    (∀ s, quote_ident s = "\x22" ++ s ++ "\x22"
      ∧ countQuotes (quote_ident s) = countQuotes s + 2)
    ∧ countQuotes (quote_ident "a\x22b") = 3 := by
  refine ⟨fun s => ⟨rfl, ?_⟩, by decide⟩
  simp [countQuotes, quote_ident, String.data_append]

end PgDbTools
